import Mathlib

/-! # Shallow embedding of the privasee backend core

Definitions are translated from src/backend/app: severity_store.py,
utils/url_utils.py, api/tos_processor/router.py (cache keys and the
background unit of work), and api/overlay_summary.py (risk summarizer).
External collaborators (the Valkey client state, tldextract, page fetching
and the LLM extraction call) appear as explicit data or function
parameters. -/

namespace Privasee

/-- Python dict.get over an association list (first binding wins). -/
def dictGet {α : Type} (m : List (String × α)) (k : String) : Option α :=
  (m.find? (fun p => p.1 == k)).map (fun p => p.2)

/-- Python str.strip: drop leading and trailing whitespace. Implemented by
structural recursion over the character list so that the kernel can
evaluate it (String.trim is position-based and does not reduce). -/
def pyStrip (s : String) : String :=
  ⟨(((s.data.dropWhile Char.isWhitespace).reverse.dropWhile
      Char.isWhitespace).reverse)⟩

/-- Per-attribute entry: color + sensitivity_level (severity_store.SeverityEntry). -/
structure SeverityEntry where
  color : String
  sensitivity_level : Int
  deriving DecidableEq, Repr

/-- A raw value stored in the config:attribute_severity hash: either a JSON
object carrying both required fields, or any other stored text (a bare color
string, malformed JSON, or JSON of the wrong shape), kept as its raw text.
Both non-object cases feed the raw text to the legacy upgrade path, exactly as
get_attribute_severity_map does. -/
inductive StoredVal where
  | entry (e : SeverityEntry)
  | raw (s : String)
  deriving DecidableEq, Repr

/-- severity_store.DEFAULT_ATTRIBUTE_SEVERITY, in source order. -/
def DEFAULT_ATTRIBUTE_SEVERITY : List (String × SeverityEntry) :=
  [("name", ⟨"yellow", 3⟩),
   ("email", ⟨"yellow", 4⟩),
   ("phone_number", ⟨"yellow", 5⟩),
   ("physical_address", ⟨"red", 1⟩),
   ("date_of_birth", ⟨"yellow", 2⟩),
   ("government_id", ⟨"red", 9⟩),
   ("financial_account", ⟨"red", 10⟩),
   ("biometric", ⟨"red", 2⟩),
   ("photo", ⟨"yellow", 9⟩),
   ("gender", ⟨"yellow", 18⟩),
   ("nationality", ⟨"yellow", 17⟩),
   ("race_ethnicity", ⟨"red", 17⟩),
   ("ip_address", ⟨"yellow", 6⟩),
   ("device_id", ⟨"yellow", 8⟩),
   ("browser_info", ⟨"green", 2⟩),
   ("os", ⟨"green", 3⟩),
   ("screen_resolution", ⟨"green", 4⟩),
   ("language", ⟨"green", 5⟩),
   ("timezone", ⟨"green", 6⟩),
   ("fingerprint", ⟨"red", 13⟩),
   ("precise_gps", ⟨"red", 11⟩),
   ("coarse_location", ⟨"green", 7⟩),
   ("wifi_cell", ⟨"red", 12⟩),
   ("ip_derived", ⟨"yellow", 7⟩),
   ("posts", ⟨"yellow", 12⟩),
   ("messages", ⟨"red", 14⟩),
   ("photos", ⟨"yellow", 10⟩),
   ("videos", ⟨"yellow", 11⟩),
   ("search_history", ⟨"red", 15⟩),
   ("purchase_history", ⟨"yellow", 13⟩),
   ("contacts", ⟨"red", 16⟩),
   ("social_media", ⟨"yellow", 14⟩),
   ("advertisers", ⟨"yellow", 15⟩),
   ("analytics", ⟨"green", 1⟩),
   ("data_brokers", ⟨"yellow", 16⟩),
   ("affiliates", ⟨"green", 8⟩),
   ("health", ⟨"red", 3⟩),
   ("genetic", ⟨"red", 1⟩),
   ("political", ⟨"red", 5⟩),
   ("religious", ⟨"red", 6⟩),
   ("sexual_orientation", ⟨"red", 4⟩),
   ("union_membership", ⟨"red", 7⟩),
   ("criminal", ⟨"red", 8⟩),
   ("age_under_13", ⟨"red", 18⟩),
   ("age_13_to_17", ⟨"red", 19⟩),
   ("parental_consent_required", ⟨"red", 20⟩)]

/-- The color strings accepted by the legacy upgrade path. -/
def isValidColor (s : String) : Bool :=
  s == "red" || s == "yellow" || s == "green"

/-- severity_store._legacy_entry: convert a legacy stored value (plain color
string) to a SeverityEntry using the defaults. -/
def legacy_entry (attr : String) (color : String) : SeverityEntry :=
  let dflt := (dictGet DEFAULT_ATTRIBUTE_SEVERITY attr).getD ⟨"green", 1⟩
  ⟨if isValidColor color then color else dflt.color, dflt.sensitivity_level⟩

/-- severity_store.get_attribute_severity_map: the full attribute map as read
from the raw hash, normalizing each non-conforming stored value through the
legacy path. Reading an unset (empty) hash yields the empty map. -/
def get_attribute_severity_map (raw : List (String × StoredVal)) :
    List (String × SeverityEntry) :=
  raw.map (fun p =>
    (p.1, match p.2 with
          | .entry e => e
          | .raw s => legacy_entry p.1 s))

/-- The severity map actually used for scoring and coloring: the live map, or
a copy of the default table when the live map is empty (the fallback taken by
both set_site_attributes and get_site_attributes). -/
def severityMapOrDefaults (raw : List (String × StoredVal)) :
    List (String × SeverityEntry) :=
  if (get_attribute_severity_map raw).isEmpty then DEFAULT_ATTRIBUTE_SEVERITY
  else get_attribute_severity_map raw

/-- The score computed for one attribute inside set_site_attributes:
severity_map.get(attr) or DEFAULT_ATTRIBUTE_SEVERITY.get(attr), taking its
sensitivity_level, else the fallback level 1. -/
def attributeScore (severity_map : List (String × SeverityEntry))
    (attr : String) : Int :=
  match (dictGet severity_map attr).orElse
      (fun _ => dictGet DEFAULT_ATTRIBUTE_SEVERITY attr) with
  | some e => e.sensitivity_level
  | none => 1

/-- First-occurrence de-duplication, mirroring insertion into a Python dict
keyed by attribute (the value written for a repeated key is identical). -/
def dedupFirst : List String → List String
  | [] => []
  | a :: rest => a :: (dedupFirst rest).filter (fun b => b != a)

/-- severity_store.set_site_attributes, as the ZSET content it writes for the
domain: each distinct attribute of the input paired with its score. An empty
input leaves the (deleted) set empty. -/
def set_site_attributes (raw : List (String × StoredVal))
    (attributes : List String) : List (String × Int) :=
  if attributes.isEmpty then []
  else (dedupFirst attributes).map
    (fun a => (a, attributeScore (severityMapOrDefaults raw) a))

/-- Redis ZREVRANGE comparison: higher score first; on equal scores, members
in reverse lexicographic order. -/
def zrevBefore (p q : String × Int) : Bool :=
  decide (q.2 < p.2 ∨ (p.2 = q.2 ∧ q.1 ≤ p.1))

/-- Insertion step of the ZREVRANGE ordering model. -/
def insertZ (p : String × Int) : List (String × Int) → List (String × Int)
  | [] => [p]
  | q :: rest => if zrevBefore p q then p :: q :: rest else q :: insertZ p rest

/-- ZREVRANGE over the modelled ZSET content: all members with scores, sorted
by score descending. -/
def zrevrange (z : List (String × Int)) : List (String × Int) :=
  z.foldr insertZ []

/-- One element returned by get_site_attributes. The source dict key is
"attribute"; that word is a Lean keyword, hence the field name
attributeName. -/
structure SiteAttr where
  attributeName : String
  color : String
  sensitivity_level : Int
  deriving DecidableEq, Repr

/-- The color computed for one member inside get_site_attributes:
severity_map.get(attr) or DEFAULT_ATTRIBUTE_SEVERITY.get(attr), taking its
color, else the fallback "green". -/
def attributeColor (severity_map : List (String × SeverityEntry))
    (attr : String) : String :=
  match (dictGet severity_map attr).orElse
      (fun _ => dictGet DEFAULT_ATTRIBUTE_SEVERITY attr) with
  | some e => e.color
  | none => "green"

/-- severity_store.get_site_attributes: members of the domain ZSET sorted by
sensitivity_level (highest first), each colored through the severity map read
at call time. Empty list when no data exists for the domain. -/
def get_site_attributes (raw : List (String × StoredVal))
    (z : List (String × Int)) : List SiteAttr :=
  if (zrevrange z).isEmpty then []
  else (zrevrange z).map
    (fun p => ⟨p.1, attributeColor (severityMapOrDefaults raw) p.1, p.2⟩)

/-- Sorted, duplicate-free insertion into a strictly ascending string list. -/
def insertSortedDedup (x : String) : List String → List String
  | [] => [x]
  | y :: rest =>
    if x = y then y :: rest
    else if x < y then x :: y :: rest
    else y :: insertSortedDedup x rest

/-- Python sorted(set(l)): the strictly ascending duplicate-free arrangement
of the elements of l. Used both by the cache-key derivation (sorted set of
domains) and by collect_attributes_from_data_collection (sorted attr set). -/
def sortedDedup (l : List String) : List String :=
  l.foldr insertSortedDedup []

/-- The domains considered by tos_processor.router._cache_key_for_urls:
get_domain(u) for every non-blank u. The registrable-root-domain extraction
(utils.url_utils.get_domain, backed by the external tldextract library) is
the function parameter gd; get_domain returns the empty string when no
domain can be extracted. -/
def extracted_domains (gd : String → String) (urls : List String) :
    List String :=
  (urls.filter (fun u => pyStrip u != "")).map gd

/-- tos_processor.router._cache_key_for_urls: sorted de-duplicated domain
set joined with a fixed separator under the cache prefix; the sentinel key
part "no_domain" when the domain set is empty. -/
def cache_key_for_urls (gd : String → String) (urls : List String) : String :=
  "tos:process:" ++
    (if (sortedDedup (extracted_domains gd urls)).isEmpty then "no_domain"
     else String.intercalate "|" (sortedDedup (extracted_domains gd urls)))

/-- overlay_summary._cache_key_for_domain. -/
def cache_key_for_domain (domain : String) : String :=
  "tos:process:" ++ domain

/-- A data_collection sub-section holding a types list (models.py,
PersonalIdentifiersCollected and its five siblings share this shape). -/
structure DCSection where
  types : List String
  evidence : String
  explanation : String
  mitigation : String
  deriving DecidableEq, Repr

/-- models.Signal: a single extracted signal. -/
structure Signal where
  status : String
  evidence : String
  explanation : String
  mitigation : String
  deriving DecidableEq, Repr

/-- models.DataCollectionSection. There is no children_data field in the
pydantic model, so lookups of that key in severity_store always miss. -/
structure DataCollectionSection where
  personal_identifiers : DCSection
  ip_address : Signal
  precise_location : DCSection
  device_fingerprinting : DCSection
  user_content : DCSection
  third_party_data : DCSection
  sensitive_data : DCSection
  deriving DecidableEq, Repr

/-- models.RetentionSection. -/
structure RetentionSection where
  retention_duration : String
  retention_explanation : String
  deletion_rights : Signal
  vague_retention_language : Signal
  deriving DecidableEq, Repr

/-- models.PolicyAnalysis, restricted to the sections the verified
operations consult (data_collection and retention); metadata, data_usage,
user_rights, legal_terms, red_flags and scores are never read by the cache
writer or the risk summarizer. -/
structure PolicyAnalysis where
  data_collection : DataCollectionSection
  retention : RetentionSection
  deriving DecidableEq, Repr

/-- severity_store.collect_attributes_from_data_collection: the sorted
de-duplicated attribute names of every types list (children_data is absent
from the model, contributing nothing), plus "ip_address" when the ip_address
signal status indicates collection. -/
def collect_attributes_from_data_collection (dc : DataCollectionSection) :
    List String :=
  let base :=
    dc.personal_identifiers.types ++ dc.precise_location.types ++
    dc.device_fingerprinting.types ++ dc.user_content.types ++
    dc.third_party_data.types ++ dc.sensitive_data.types
  let withIp :=
    if dc.ip_address.status == "true" || dc.ip_address.status == "True" then
      base ++ ["ip_address"]
    else base
  sortedDedup withIp

/-- tos_processor.router._policies_with_headings. -/
def policies_with_headings (pages : List (String × String)) : List String :=
  pages.map (fun p => "Source: " ++ p.1 ++ "\n\n" ++ pyStrip p.2)

/-- The fetch loop of _run_process_and_cache: fetch each URL in order,
aborting on the first failure. -/
def fetchAll (fetch : String → Except String String) :
    List String → Except String (List (String × String))
  | [] => .ok []
  | u :: rest =>
    match fetch u with
    | .error e => .error e
    | .ok t =>
      match fetchAll fetch rest with
      | .error e => .error e
      | .ok r => .ok ((u, t) :: r)

/-- The externally visible writes performed by one background unit of work:
the Analysis Cache entry (key and value) and the per-domain Site Attribute
Store replacements, each recorded as (domain, attribute list). -/
structure BackgroundWrites where
  cacheWrite : Option (String × PolicyAnalysis)
  siteWrites : List (String × List String)
  deriving DecidableEq, Repr

/-- tos_processor.router._run_process_and_cache, as the writes the unit
performs. A fetch failure aborts before the extraction call; an extraction
failure is caught by the surrounding handler; in both cases the unit ends
with no write at all. On success it writes the cache entry under the URL
cache key and then replaces the attribute set of every request domain. -/
def run_process_and_cache (fetch : String → Except String String)
    (extract : List String → Except String PolicyAnalysis)
    (gd : String → String) (urls : List String) : BackgroundWrites :=
  match fetchAll fetch urls with
  | .error _ => ⟨none, []⟩
  | .ok pages =>
    match extract (policies_with_headings pages) with
    | .error _ => ⟨none, []⟩
    | .ok extraction =>
      let cache_key := cache_key_for_urls gd urls
      let found_attrs :=
        collect_attributes_from_data_collection extraction.data_collection
      let domains := dedupFirst (extracted_domains gd urls)
      ⟨some (cache_key, extraction),
       domains.map (fun d => (d, found_attrs))⟩

/-- overlay_summary.ATTRIBUTE_TO_SECTION_TYPE, in source order. -/
def ATTRIBUTE_TO_SECTION_TYPE : List (String × String) :=
  [("name", "personal_identifiers"),
   ("email", "personal_identifiers"),
   ("phone_number", "personal_identifiers"),
   ("physical_address", "personal_identifiers"),
   ("date_of_birth", "personal_identifiers"),
   ("government_id", "personal_identifiers"),
   ("financial_account", "personal_identifiers"),
   ("biometric", "sensitive_data"),
   ("photo", "personal_identifiers"),
   ("gender", "personal_identifiers"),
   ("nationality", "personal_identifiers"),
   ("race_ethnicity", "sensitive_data"),
   ("ip_address", "ip_address"),
   ("precise_gps", "precise_location"),
   ("coarse_location", "precise_location"),
   ("wifi_cell", "precise_location"),
   ("ip_derived", "precise_location"),
   ("device_id", "device_fingerprinting"),
   ("browser_info", "device_fingerprinting"),
   ("os", "device_fingerprinting"),
   ("screen_resolution", "device_fingerprinting"),
   ("language", "device_fingerprinting"),
   ("timezone", "device_fingerprinting"),
   ("fingerprint", "device_fingerprinting"),
   ("posts", "user_content"),
   ("messages", "user_content"),
   ("photos", "user_content"),
   ("videos", "user_content"),
   ("search_history", "user_content"),
   ("purchase_history", "user_content"),
   ("contacts", "user_content"),
   ("social_media", "third_party_data"),
   ("advertisers", "third_party_data"),
   ("analytics", "third_party_data"),
   ("data_brokers", "third_party_data"),
   ("affiliates", "third_party_data"),
   ("health", "sensitive_data"),
   ("genetic", "sensitive_data"),
   ("political", "sensitive_data"),
   ("religious", "sensitive_data"),
   ("sexual_orientation", "sensitive_data"),
   ("union_membership", "sensitive_data"),
   ("criminal", "sensitive_data"),
   ("age_under_13", "sensitive_data"),
   ("age_13_to_17", "sensitive_data"),
   ("parental_consent_required", "sensitive_data")]

/-- overlay_summary._attribute_section_type: the section type of an
attribute, falling back to the attribute name itself when unknown. -/
def attribute_section_type (attr_name : String) : String :=
  (dictGet ATTRIBUTE_TO_SECTION_TYPE attr_name).getD attr_name

/-- Substring containment over character lists (the Python "in" test on
strings), by structural recursion. -/
def hasSubstring (pat : List Char) : List Char → Bool
  | [] => pat.isEmpty
  | c :: rest => pat.isPrefixOf (c :: rest) || hasSubstring pat rest

/-- overlay_summary._normalize_domain: trim, accept host-only values by
adding a scheme, extract the root domain, and fall back to the trimmed raw
input when extraction yields nothing. -/
def normalize_domain (gd : String → String) (raw_domain : String) : String :=
  if pyStrip raw_domain = "" then pyStrip raw_domain
  else if gd (if hasSubstring "://".data (pyStrip raw_domain).data then
        pyStrip raw_domain
      else "https://" ++ pyStrip raw_domain) = "" then
    pyStrip raw_domain
  else gd (if hasSubstring "://".data (pyStrip raw_domain).data then
      pyStrip raw_domain
    else "https://" ++ pyStrip raw_domain)

/-- Title casing at character level, as Python str.title does: an alphabetic
character is uppercased when the previous character is not alphabetic and
lowercased otherwise. The Bool argument records whether the previous
character was alphabetic. -/
def titleChars : Bool → List Char → List Char
  | _, [] => []
  | prevAlpha, c :: rest =>
    if c.isAlpha then
      (if prevAlpha then c.toLower else c.toUpper) :: titleChars true rest
    else c :: titleChars false rest

/-- overlay_summary._format_attribute_name: underscores to spaces, then
Python str.title. -/
def format_attribute_name (value : String) : String :=
  ⟨titleChars false (value.data.map (fun c => if c = '_' then ' ' else c))⟩

/-- The evidence, explanation and mitigation texts of a located section. -/
structure SectionTexts where
  evidence : String
  explanation : String
  mitigation : String
  deriving DecidableEq, Repr

/-- overlay_summary._get_section_for_attribute: the first typed section
whose types list contains the attribute, in the fixed section order
(children_data is not consulted there); otherwise, for "ip_address", the
ip_address signal. -/
def get_section_for_attribute (attr : String) (dc : DataCollectionSection) :
    Option SectionTexts :=
  let typed : List DCSection :=
    [dc.personal_identifiers, dc.precise_location, dc.device_fingerprinting,
     dc.user_content, dc.third_party_data, dc.sensitive_data]
  match typed.find? (fun s => s.types.contains attr) with
  | some s => some ⟨s.evidence, s.explanation, s.mitigation⟩
  | none =>
    if attr = "ip_address" then
      some ⟨dc.ip_address.evidence, dc.ip_address.explanation,
            dc.ip_address.mitigation⟩
    else none

/-- overlay_summary._get_evidence_for_attribute over the (possibly absent)
cached analysis: empty string when there is no cached analysis or no section
contains the attribute. -/
def get_evidence_for_attribute (attr : String)
    (analysis : Option PolicyAnalysis) : String :=
  match analysis with
  | none => ""
  | some a =>
    match get_section_for_attribute attr a.data_collection with
    | some s => s.evidence
    | none => ""

/-- overlay_summary._get_explanation_for_attribute. -/
def get_explanation_for_attribute (attr : String)
    (analysis : Option PolicyAnalysis) : String :=
  match analysis with
  | none => ""
  | some a =>
    match get_section_for_attribute attr a.data_collection with
    | some s => s.explanation
    | none => ""

/-- overlay_summary._get_mitigation_for_attribute. -/
def get_mitigation_for_attribute (attr : String)
    (analysis : Option PolicyAnalysis) : String :=
  match analysis with
  | none => ""
  | some a =>
    match get_section_for_attribute attr a.data_collection with
    | some s => s.mitigation
    | none => ""

/-- The top-3 selection loop of compute_top_risks: walk the red attributes
in order, skip an empty attribute name, skip an already-seen section type,
and stop as soon as the kept list reaches the remaining capacity. -/
def selectTopLoop (seen : List String) (need : Nat) :
    List SiteAttr → List SiteAttr
  | [] => []
  | a :: rest =>
    if a.attributeName = "" then selectTopLoop seen need rest
    else if attribute_section_type a.attributeName ∈ seen then
      selectTopLoop seen need rest
    else if need ≤ 1 then [a]
    else a :: selectTopLoop (attribute_section_type a.attributeName :: seen)
      (need - 1) rest

/-- The number of distinct section types among attributes with a non-empty
name whose section type is not already seen; the quantity the selection
loop is bounded by. -/
def newCategoryCount (seen : List String) : List SiteAttr → Nat
  | [] => 0
  | a :: rest =>
    if a.attributeName = "" then newCategoryCount seen rest
    else if attribute_section_type a.attributeName ∈ seen then
      newCategoryCount seen rest
    else newCategoryCount (attribute_section_type a.attributeName :: seen) rest + 1

/-- One enriched entry of top_high_risk_attributes. -/
structure EnrichedAttr where
  title : String
  evidence : String
  explanation : String
  color : String
  sensitivity_level : Int
  deriving DecidableEq, Repr

/-- One mitigation entry. -/
structure MitigationEntry where
  title : String
  mitigation : String
  deriving DecidableEq, Repr

/-- The data_retention_policy part of the overlay payload. -/
structure RetentionPolicyView where
  title : String
  explanation : String
  deriving DecidableEq, Repr

/-- The compute_top_risks result. -/
structure RiskSummary where
  domain : String
  top_high_risk_attributes : List EnrichedAttr
  data_retention_policy : RetentionPolicyView
  mitigations : List MitigationEntry
  has_cached_analysis : Bool
  deriving DecidableEq, Repr

/-- The best-effort cache read inside compute_top_risks: a raised lookup
error is caught and treated as a miss. -/
def cachedAnalysisOf (cacheFetch : String → Except String (Option PolicyAnalysis))
    (key : String) : Option PolicyAnalysis :=
  match cacheFetch key with
  | .error _ => none
  | .ok v => v

/-- Step 4 of compute_top_risks: enrich one selected attribute. -/
def enrichAttr (analysis : Option PolicyAnalysis) (item : SiteAttr) :
    EnrichedAttr :=
  ⟨format_attribute_name item.attributeName,
   get_evidence_for_attribute item.attributeName analysis,
   get_explanation_for_attribute item.attributeName analysis,
   item.color, item.sensitivity_level⟩

/-- Step 6 of compute_top_risks: the mitigation entry of one selected
attribute. -/
def mitigationOf (analysis : Option PolicyAnalysis) (item : SiteAttr) :
    MitigationEntry :=
  ⟨format_attribute_name item.attributeName,
   get_mitigation_for_attribute item.attributeName analysis⟩

/-- Step 5 and 7 of compute_top_risks: the retention explanation text. -/
def retentionExplanationOf (analysis : Option PolicyAnalysis) : String :=
  pyStrip (match analysis with
           | some a => a.retention.retention_explanation
           | none => "")

/-- Step 2 of compute_top_risks: all attributes of the normalized domain,
filtered to the red (high risk) ones. -/
def red_attrs_for (gd : String → String) (raw : List (String × StoredVal))
    (zsetOf : String → List (String × Int)) (domain : String) : List SiteAttr :=
  (get_site_attributes raw (zsetOf (normalize_domain gd domain))).filter
    (fun a => a.color == "red")

/-- Step 2 continued: the top-3 selection over the red attributes. -/
def top3_for (gd : String → String) (raw : List (String × StoredVal))
    (zsetOf : String → List (String × Int)) (domain : String) : List SiteAttr :=
  selectTopLoop [] 3 (red_attrs_for gd raw zsetOf domain)

/-- Step 3 of compute_top_risks: the best-effort cached analysis of the
normalized domain. -/
def cached_for (cacheFetch : String → Except String (Option PolicyAnalysis))
    (gd : String → String) (domain : String) : Option PolicyAnalysis :=
  cachedAnalysisOf cacheFetch (cache_key_for_domain (normalize_domain gd domain))

/-- overlay_summary.compute_top_risks. State parameters: raw is the stored
severity hash, zsetOf gives each domain ZSET content, cacheFetch is the
Analysis Cache read (which may raise), gd the root-domain extraction. -/
def compute_top_risks (gd : String → String)
    (raw : List (String × StoredVal))
    (zsetOf : String → List (String × Int))
    (cacheFetch : String → Except String (Option PolicyAnalysis))
    (domain : String) : RiskSummary :=
  ⟨normalize_domain gd domain,
   (top3_for gd raw zsetOf domain).map (enrichAttr (cached_for cacheFetch gd domain)),
   ⟨"Data Retention Policy", retentionExplanationOf (cached_for cacheFetch gd domain)⟩,
   ((top3_for gd raw zsetOf domain).take 2).map (mitigationOf (cached_for cacheFetch gd domain)),
   (cached_for cacheFetch gd domain).isSome⟩

/-! ## Properties of the sorted de-duplication used by the cache key -/

theorem mem_insertSortedDedup (a x : String) (l : List String) :
    a ∈ insertSortedDedup x l ↔ a = x ∨ a ∈ l := by
  induction l with
  | nil => simp [insertSortedDedup]
  | cons y rest ih =>
    simp only [insertSortedDedup]
    by_cases h1 : x = y
    · rw [if_pos h1]
      subst h1
      simp only [List.mem_cons]
      tauto
    · rw [if_neg h1]
      by_cases h2 : x < y
      · rw [if_pos h2]
        simp only [List.mem_cons]
      · rw [if_neg h2]
        simp only [List.mem_cons, ih]
        tauto

theorem pairwise_insertSortedDedup (x : String) (l : List String)
    (h : l.Pairwise (· < ·)) :
    (insertSortedDedup x l).Pairwise (· < ·) := by
  induction l with
  | nil => simp [insertSortedDedup]
  | cons y rest ih =>
    rw [List.pairwise_cons] at h
    obtain ⟨hy, hrest⟩ := h
    simp only [insertSortedDedup]
    by_cases h1 : x = y
    · rw [if_pos h1]
      exact List.pairwise_cons.mpr ⟨hy, hrest⟩
    · rw [if_neg h1]
      by_cases h2 : x < y
      · rw [if_pos h2]
        refine List.pairwise_cons.mpr ⟨?_, List.pairwise_cons.mpr ⟨hy, hrest⟩⟩
        intro b hb
        rcases List.mem_cons.mp hb with rfl | hb
        · exact h2
        · exact lt_trans h2 (hy b hb)
      · rw [if_neg h2]
        refine List.pairwise_cons.mpr ⟨?_, ih hrest⟩
        intro b hb
        rcases (mem_insertSortedDedup b x rest).mp hb with rfl | hb
        · exact lt_of_le_of_ne (not_lt.mp h2) (Ne.symm h1)
        · exact hy b hb

theorem mem_sortedDedup (a : String) (l : List String) :
    a ∈ sortedDedup l ↔ a ∈ l := by
  induction l with
  | nil => simp [sortedDedup]
  | cons x rest ih =>
    show a ∈ insertSortedDedup x (sortedDedup rest) ↔ a ∈ x :: rest
    rw [mem_insertSortedDedup, ih, List.mem_cons]

theorem pairwise_sortedDedup (l : List String) :
    (sortedDedup l).Pairwise (· < ·) := by
  induction l with
  | nil => simp [sortedDedup]
  | cons x rest ih => exact pairwise_insertSortedDedup x _ ih

theorem eq_of_pairwise_lt_of_mem_iff (l₁ : List String) :
    ∀ l₂ : List String, l₁.Pairwise (· < ·) → l₂.Pairwise (· < ·) →
    (∀ a, a ∈ l₁ ↔ a ∈ l₂) → l₁ = l₂ := by
  induction l₁ with
  | nil =>
    intro l₂ _ _ hmem
    cases l₂ with
    | nil => rfl
    | cons b t₂ =>
      exact absurd ((hmem b).mpr (List.mem_cons_self b t₂)) (List.not_mem_nil b)
  | cons a t₁ ih =>
    intro l₂ h₁ h₂ hmem
    cases l₂ with
    | nil =>
      exact absurd ((hmem a).mp (List.mem_cons_self a t₁)) (List.not_mem_nil a)
    | cons b t₂ =>
      rw [List.pairwise_cons] at h₁ h₂
      have hab : a = b := by
        rcases List.mem_cons.mp ((hmem a).mp (List.mem_cons_self a t₁)) with h | h
        · exact h
        · have hba : b < a := h₂.1 a h
          rcases List.mem_cons.mp ((hmem b).mpr (List.mem_cons_self b t₂)) with h' | h'
          · exact h'.symm
          · exact absurd (lt_trans hba (h₁.1 b h')) (lt_irrefl b)
      subst hab
      have htail : ∀ x, x ∈ t₁ ↔ x ∈ t₂ := by
        intro x
        constructor
        · intro hx
          have hax : a < x := h₁.1 x hx
          rcases List.mem_cons.mp ((hmem x).mp (List.mem_cons.mpr (Or.inr hx))) with h | h
          · rw [h] at hax
            exact absurd hax (lt_irrefl a)
          · exact h
        · intro hx
          have hax : a < x := h₂.1 x hx
          rcases List.mem_cons.mp ((hmem x).mpr (List.mem_cons.mpr (Or.inr hx))) with h | h
          · rw [h] at hax
            exact absurd hax (lt_irrefl a)
          · exact h
      rw [ih t₂ h₁.2 h₂.2 htail]

theorem sortedDedup_eq_of_mem_iff {l₁ l₂ : List String}
    (h : ∀ a, a ∈ l₁ ↔ a ∈ l₂) : sortedDedup l₁ = sortedDedup l₂ :=
  eq_of_pairwise_lt_of_mem_iff _ _ (pairwise_sortedDedup l₁) (pairwise_sortedDedup l₂)
    (fun a => by rw [mem_sortedDedup, mem_sortedDedup]; exact h a)

theorem sortedDedup_of_all_empty (l : List String) (hne : l ≠ [])
    (h : ∀ x ∈ l, x = "") : sortedDedup l = [""] := by
  induction l with
  | nil => exact absurd rfl hne
  | cons a rest ih =>
    have ha : a = "" := h a (List.mem_cons_self a rest)
    subst ha
    cases rest with
    | nil => rfl
    | cons b t =>
      have hrec : sortedDedup (b :: t) = [""] :=
        ih (by simp) (fun x hx => h x (List.mem_cons.mpr (Or.inr hx)))
      show insertSortedDedup "" (sortedDedup (b :: t)) = [""]
      rw [hrec]
      rfl

/-- C3: two URL lists whose non-blank URLs yield the same set of root
domains produce the same cache key (hence resolve to the same Analysis
Cache entry), regardless of duplicates or ordering; differences of path or
scheme are absorbed by the domain-extraction function gd. -/
theorem cache_key_respects_domain_set (gd : String → String)
    (urls₁ urls₂ : List String)
    (h : ∀ d, d ∈ extracted_domains gd urls₁ ↔ d ∈ extracted_domains gd urls₂) :
    cache_key_for_urls gd urls₁ = cache_key_for_urls gd urls₂ := by
  unfold cache_key_for_urls
  rw [sortedDedup_eq_of_mem_iff h]

theorem cache_key_respects_domain_set_witness :
    cache_key_for_urls (fun _ => "example.com") ["https://a.example.com/x"] =
      cache_key_for_urls (fun _ => "example.com")
        ["http://a.example.com/y", "https://a.example.com/x"] := by
  refine cache_key_respects_domain_set _ _ _ ?_
  have e1 : extracted_domains (fun _ => "example.com") ["https://a.example.com/x"] =
      ["example.com"] := rfl
  have e2 : extracted_domains (fun _ => "example.com")
      ["http://a.example.com/y", "https://a.example.com/x"] =
      ["example.com", "example.com"] := rfl
  intro d
  rw [e1, e2]
  simp [List.mem_cons]

/-- C9 counterexample: a non-empty URL list whose single URL is non-blank
but yields no domain produces the bare prefix key (the empty string joined
domain list), not the sentinel key. -/
theorem sentinel_key_counterexample :
    cache_key_for_urls (fun _ => "") ["https://"] = "tos:process:" ∧
    cache_key_for_urls (fun _ => "") ["https://"] ≠ "tos:process:no_domain" := by
  decide

/-- C9 (amended): the sentinel key part "no_domain" is used exactly when
every URL of the list is blank; a list containing a non-blank URL where the
extraction yields no domain (the empty string) for every URL instead
produces the bare prefix, because the empty string is kept as a domain. -/
theorem sentinel_key_amended (gd : String → String) (urls : List String) :
    ((∀ u ∈ urls, pyStrip u = "") →
      cache_key_for_urls gd urls = "tos:process:no_domain") ∧
    ((∃ u ∈ urls, pyStrip u ≠ "") → (∀ u ∈ urls, gd u = "") →
      cache_key_for_urls gd urls = "tos:process:") := by
  constructor
  · intro hblank
    have hfil : urls.filter (fun u => pyStrip u != "") = [] := by
      rw [List.filter_eq_nil_iff]
      intro u hu
      simp [hblank u hu]
    unfold cache_key_for_urls extracted_domains
    rw [hfil]
    rfl
  · intro ⟨u, hu, hune⟩ hgd
    have hdom : sortedDedup (extracted_domains gd urls) = [""] := by
      refine sortedDedup_of_all_empty _ ?_ ?_
      · have humem : u ∈ urls.filter (fun v => pyStrip v != "") :=
          List.mem_filter.mpr ⟨hu, by simpa using hune⟩
        intro hmap
        rw [extracted_domains, List.map_eq_nil_iff] at hmap
        rw [hmap] at humem
        exact List.not_mem_nil u humem
      · intro x hx
        rw [extracted_domains] at hx
        obtain ⟨v, hv, rfl⟩ := List.mem_map.mp hx
        exact hgd v (List.mem_filter.mp hv).1
    unfold cache_key_for_urls
    rw [hdom]
    rfl

theorem sentinel_key_amended_witness :
    cache_key_for_urls (fun _ => "") ["  "] = "tos:process:no_domain" ∧
    cache_key_for_urls (fun _ => "") ["https://"] = "tos:process:" := by
  constructor
  · exact (sentinel_key_amended (fun _ => "") ["  "]).1 (by decide)
  · exact (sentinel_key_amended (fun _ => "") ["https://"]).2
      ⟨"https://", by decide, by decide⟩ (fun u _ => rfl)

/-! ## Properties of the ZSET model and get_site_attributes -/

theorem mem_insertZ (a p : String × Int) (l : List (String × Int)) :
    a ∈ insertZ p l ↔ a = p ∨ a ∈ l := by
  induction l with
  | nil => simp [insertZ]
  | cons q rest ih =>
    simp only [insertZ]
    by_cases hb : zrevBefore p q = true
    · rw [if_pos hb]
      simp only [List.mem_cons]
    · rw [if_neg hb]
      simp only [List.mem_cons, ih]
      tauto

theorem perm_insertZ (p : String × Int) (l : List (String × Int)) :
    (insertZ p l).Perm (p :: l) := by
  induction l with
  | nil => exact List.Perm.refl _
  | cons q rest ih =>
    simp only [insertZ]
    by_cases hb : zrevBefore p q = true
    · rw [if_pos hb]
    · rw [if_neg hb]
      exact (ih.cons q).trans (List.Perm.swap p q rest)

theorem perm_zrevrange (z : List (String × Int)) : (zrevrange z).Perm z := by
  induction z with
  | nil => exact List.Perm.refl _
  | cons p rest ih =>
    show (insertZ p (zrevrange rest)).Perm (p :: rest)
    exact (perm_insertZ p _).trans (ih.cons p)

theorem pairwise_insertZ (p : String × Int) (l : List (String × Int))
    (h : l.Pairwise (fun x y => y.2 ≤ x.2)) :
    (insertZ p l).Pairwise (fun x y => y.2 ≤ x.2) := by
  induction l with
  | nil => simp [insertZ]
  | cons q rest ih =>
    rw [List.pairwise_cons] at h
    obtain ⟨hq, hrest⟩ := h
    simp only [insertZ]
    by_cases hb : zrevBefore p q = true
    · rw [if_pos hb]
      have hpq : q.2 ≤ p.2 := by
        simp only [zrevBefore, decide_eq_true_eq] at hb
        rcases hb with h | h
        · exact le_of_lt h
        · exact le_of_eq h.1.symm
      refine List.pairwise_cons.mpr ⟨?_, List.pairwise_cons.mpr ⟨hq, hrest⟩⟩
      intro b hb'
      rcases List.mem_cons.mp hb' with rfl | hb'
      · exact hpq
      · exact le_trans (hq b hb') hpq
    · rw [if_neg hb]
      have hqp : p.2 ≤ q.2 := by
        simp only [zrevBefore, decide_eq_true_eq] at hb
        push_neg at hb
        exact hb.1
      refine List.pairwise_cons.mpr ⟨?_, ih hrest⟩
      intro b hb'
      rcases (mem_insertZ b p rest).mp hb' with rfl | hb'
      · exact hqp
      · exact hq b hb'

theorem pairwise_zrevrange (z : List (String × Int)) :
    (zrevrange z).Pairwise (fun x y => y.2 ≤ x.2) := by
  induction z with
  | nil => simp [zrevrange]
  | cons p rest ih =>
    show (insertZ p (zrevrange rest)).Pairwise _
    exact pairwise_insertZ p _ ih

theorem pairwise_get_site_attributes (raw : List (String × StoredVal))
    (z : List (String × Int)) :
    (get_site_attributes raw z).Pairwise
      (fun x y => y.sensitivity_level ≤ x.sensitivity_level) := by
  unfold get_site_attributes
  by_cases h : (zrevrange z).isEmpty = true
  · rw [if_pos h]
    exact List.Pairwise.nil
  · rw [if_neg h]
    rw [List.pairwise_map]
    exact pairwise_zrevrange z

theorem get_site_attributes_proj (raw : List (String × StoredVal))
    (z : List (String × Int)) :
    (get_site_attributes raw z).map
      (fun a => (a.attributeName, a.sensitivity_level)) = zrevrange z := by
  unfold get_site_attributes
  by_cases h : (zrevrange z).isEmpty = true
  · rw [if_pos h]
    cases hzr : zrevrange z with
    | nil => simp
    | cons q t => rw [hzr] at h; simp at h
  · rw [if_neg h]
    rw [List.map_map]
    show (zrevrange z).map (fun p => (p.1, p.2)) = zrevrange z
    simp

/-- C6: get_site_attributes returns the stored members (up to order) with
consecutive sensitivity levels non-increasing (descending score order), and
returns the empty list, not an error, for a domain with no stored
attributes. -/
theorem get_site_attributes_ordered (raw : List (String × StoredVal))
    (z : List (String × Int)) :
    List.Chain' (fun x y => y.sensitivity_level ≤ x.sensitivity_level)
      (get_site_attributes raw z) ∧
    ((get_site_attributes raw z).map
      (fun a => (a.attributeName, a.sensitivity_level))).Perm z ∧
    get_site_attributes raw [] = [] := by
  refine ⟨(pairwise_get_site_attributes raw z).chain', ?_, rfl⟩
  rw [get_site_attributes_proj]
  exact perm_zrevrange z

/-- C10: each element returned by get_site_attributes carries the
sensitivity_level stored in the ZSET at write time while its color is
looked up in the severity map current at read time (live map first, then
the default table, then green), so replacing the severity map between
write and read changes reported colors but neither the levels nor the
ordering. -/
theorem site_attributes_snapshot_scores_live_colors
    (raw raw₂ : List (String × StoredVal)) (z : List (String × Int)) :
    ((get_site_attributes raw z).map
        (fun a => (a.attributeName, a.sensitivity_level)) =
      (get_site_attributes raw₂ z).map
        (fun a => (a.attributeName, a.sensitivity_level))) ∧
    (∀ a ∈ get_site_attributes raw z,
      (a.attributeName, a.sensitivity_level) ∈ z ∧
      a.color = attributeColor (severityMapOrDefaults raw) a.attributeName) ∧
    (∀ attr, attributeColor (severityMapOrDefaults raw) attr =
      match dictGet (get_attribute_severity_map raw) attr with
      | some e => e.color
      | none =>
        match dictGet DEFAULT_ATTRIBUTE_SEVERITY attr with
        | some e => e.color
        | none => "green") := by
  refine ⟨?_, ?_, ?_⟩
  · rw [get_site_attributes_proj, get_site_attributes_proj]
  · intro a ha
    unfold get_site_attributes at ha
    by_cases h : (zrevrange z).isEmpty = true
    · rw [if_pos h] at ha
      exact absurd ha (List.not_mem_nil a)
    · rw [if_neg h] at ha
      obtain ⟨p, hp, rfl⟩ := List.mem_map.mp ha
      refine ⟨?_, rfl⟩
      have hmem : p ∈ z := (perm_zrevrange z).subset hp
      show (p.1, p.2) ∈ z
      rw [Prod.mk.eta]
      exact hmem
  · intro attr
    unfold severityMapOrDefaults
    by_cases hm : (get_attribute_severity_map raw).isEmpty = true
    · have hnil : get_attribute_severity_map raw = [] := by
        cases hgl : get_attribute_severity_map raw with
        | nil => rfl
        | cons x xs => rw [hgl] at hm; simp at hm
      rw [if_pos hm, hnil]
      unfold attributeColor
      have h0 : dictGet ([] : List (String × SeverityEntry)) attr = none := rfl
      rw [h0]
      cases hd : dictGet DEFAULT_ATTRIBUTE_SEVERITY attr with
      | none => rfl
      | some e => rfl
    · rw [if_neg hm]
      unfold attributeColor
      cases hd : dictGet (get_attribute_severity_map raw) attr with
      | none =>
        cases hd2 : dictGet DEFAULT_ATTRIBUTE_SEVERITY attr with
        | none => rfl
        | some e => rfl
      | some e => rfl

theorem site_attributes_snapshot_witness :
    ("email", (4 : Int)) ∈ [("email", (4 : Int))] ∧
    "yellow" = attributeColor (severityMapOrDefaults []) "email" := by
  have h := (site_attributes_snapshot_scores_live_colors [] [] [("email", 4)]).2.1
    ⟨"email", "yellow", 4⟩ (by decide)
  exact ⟨h.1, h.2⟩

/-! ## Severity-store write path and legacy read path -/

theorem mem_dedupFirst (a : String) (l : List String) :
    a ∈ dedupFirst l ↔ a ∈ l := by
  induction l with
  | nil => simp [dedupFirst]
  | cons x rest ih =>
    simp only [dedupFirst]
    constructor
    · intro h
      rcases List.mem_cons.mp h with rfl | h2
      · exact List.mem_cons_self _ _
      · exact List.mem_cons.mpr (Or.inr (ih.mp (List.mem_filter.mp h2).1))
    · intro h
      rcases List.mem_cons.mp h with rfl | h2
      · exact List.mem_cons_self _ _
      · by_cases hax : a = x
        · subst hax
          exact List.mem_cons_self _ _
        · refine List.mem_cons.mpr (Or.inr (List.mem_filter.mpr ⟨ih.mpr h2, ?_⟩))
          simpa using hax

/-- C1 counterexample: with a non-empty live severity map that lacks
"zzz_attr", and "zzz_attr" also absent from the default table,
set_site_attributes still stores it, with the fabricated fallback score 1,
rather than skipping it. -/
theorem unknown_attribute_stored_counterexample :
    dictGet (get_attribute_severity_map
      [("email", StoredVal.entry ⟨"yellow", 4⟩)]) "zzz_attr" = none ∧
    dictGet DEFAULT_ATTRIBUTE_SEVERITY "zzz_attr" = none ∧
    set_site_attributes [("email", StoredVal.entry ⟨"yellow", 4⟩)]
      ["zzz_attr"] = [("zzz_attr", 1)] := by
  decide

/-- C1 (amended): set_site_attributes stores every attribute of the input
list (each exactly once), scoring it from the severity map in use, falling
back to the default table and finally to the constant score 1 when the
attribute is absent from both; an unknown attribute is stored with score 1,
not skipped. -/
theorem set_site_attributes_characterization
    (raw : List (String × StoredVal)) (attributes : List String) (a : String) :
    ((∃ s, (a, s) ∈ set_site_attributes raw attributes) ↔ a ∈ attributes) ∧
    (∀ s, (a, s) ∈ set_site_attributes raw attributes →
      s = attributeScore (severityMapOrDefaults raw) a) ∧
    (dictGet (severityMapOrDefaults raw) a = none →
      dictGet DEFAULT_ATTRIBUTE_SEVERITY a = none →
      attributeScore (severityMapOrDefaults raw) a = 1) := by
  refine ⟨?_, ?_, ?_⟩
  · unfold set_site_attributes
    by_cases he : attributes.isEmpty = true
    · rw [if_pos he]
      cases hattrs : attributes with
      | nil => simp
      | cons x xs => rw [hattrs] at he; simp at he
    · rw [if_neg he]
      constructor
      · intro ⟨s, hs⟩
        obtain ⟨b, hb, hba⟩ := List.mem_map.mp hs
        have : b = a := congrArg Prod.fst hba
        rw [this] at hb
        exact (mem_dedupFirst a attributes).mp hb
      · intro ha
        exact ⟨attributeScore (severityMapOrDefaults raw) a,
          List.mem_map.mpr ⟨a, (mem_dedupFirst a attributes).mpr ha, rfl⟩⟩
  · intro s hs
    unfold set_site_attributes at hs
    by_cases he : attributes.isEmpty = true
    · rw [if_pos he] at hs
      exact absurd hs (List.not_mem_nil _)
    · rw [if_neg he] at hs
      obtain ⟨b, _, hba⟩ := List.mem_map.mp hs
      have hb : b = a := congrArg Prod.fst hba
      have hscore := congrArg Prod.snd hba
      rw [hb] at hscore
      exact hscore.symm
  · intro h1 h2
    unfold attributeScore
    rw [h1, h2]
    rfl

theorem set_site_attributes_characterization_witness :
    (∃ s, ("zzz", s) ∈ set_site_attributes [] ["zzz"]) ∧
    ((1 : Int) = attributeScore (severityMapOrDefaults []) "zzz") ∧
    attributeScore (severityMapOrDefaults []) "zzz" = 1 :=
  ⟨(set_site_attributes_characterization [] ["zzz"] "zzz").1.mpr (by decide),
   (set_site_attributes_characterization [] ["zzz"] "zzz").2.1 1 (by decide),
   (set_site_attributes_characterization [] ["zzz"] "zzz").2.2 (by decide) (by decide)⟩

/-- C4 counterexample: a bare color string stored for an attribute unknown
to the default table is upgraded to the stored color with sensitivity 1,
not to the entry (green, 1): the claimed fallback only applies to the
sensitivity_level (and to the color when the stored string is not a valid
color). -/
theorem legacy_unknown_attribute_counterexample :
    dictGet DEFAULT_ATTRIBUTE_SEVERITY "zzz" = none ∧
    get_attribute_severity_map [("zzz", StoredVal.raw "yellow")] =
      [("zzz", ⟨"yellow", 1⟩)] ∧
    (⟨"yellow", 1⟩ : SeverityEntry) ≠ ⟨"green", 1⟩ := by
  decide

/-- C4 (amended): a stored bare-string value is upgraded on read to a
structured entry whose sensitivity_level is the default-table value for
that attribute (1 when the attribute is unknown) and whose color is the
stored string itself when it is a valid color, else the default-table
color (green when the attribute is unknown); in particular a stored bare
"yellow" for "email" reads back as the entry (yellow, 4). -/
theorem legacy_upgrade (raw : List (String × StoredVal)) (attr s : String)
    (h : (attr, StoredVal.raw s) ∈ raw) :
    (attr,
      (⟨if isValidColor s then s
        else ((dictGet DEFAULT_ATTRIBUTE_SEVERITY attr).getD ⟨"green", 1⟩).color,
        ((dictGet DEFAULT_ATTRIBUTE_SEVERITY attr).getD
          ⟨"green", 1⟩).sensitivity_level⟩ : SeverityEntry)) ∈
      get_attribute_severity_map raw ∧
    get_attribute_severity_map [("email", StoredVal.raw "yellow")] =
      [("email", ⟨"yellow", 4⟩)] := by
  constructor
  · exact List.mem_map.mpr ⟨(attr, StoredVal.raw s), h, rfl⟩
  · decide

theorem legacy_upgrade_witness :
    ("email",
      (⟨if isValidColor "yellow" then "yellow"
        else ((dictGet DEFAULT_ATTRIBUTE_SEVERITY "email").getD ⟨"green", 1⟩).color,
        ((dictGet DEFAULT_ATTRIBUTE_SEVERITY "email").getD
          ⟨"green", 1⟩).sensitivity_level⟩ : SeverityEntry)) ∈
      get_attribute_severity_map [("email", StoredVal.raw "yellow")] :=
  (legacy_upgrade [("email", StoredVal.raw "yellow")] "email" "yellow"
    (by decide)).1

/-! ## The background unit of work -/

theorem fetchAll_error_of_mem (fetch : String → Except String String)
    (urls : List String) (u : String) (hu : u ∈ urls) (e : String)
    (he : fetch u = .error e) :
    ∃ e₂, fetchAll fetch urls = .error e₂ := by
  induction urls with
  | nil => cases hu
  | cons v rest ih =>
    rcases List.mem_cons.mp hu with rfl | hmem
    · exact ⟨e, by unfold fetchAll; rw [he]⟩
    · cases hv : fetch v with
      | error e₃ => exact ⟨e₃, by unfold fetchAll; rw [hv]⟩
      | ok t =>
        obtain ⟨e₂, he₂⟩ := ih hmem
        exact ⟨e₂, by unfold fetchAll; rw [hv, he₂]⟩

/-- C5: when any page fetch fails, or the extraction call over the fetched
pages fails, the background unit of work performs no write at all: no
Analysis Cache entry and no Site Attribute Store replacement for any
domain of the request. -/
theorem background_failure_writes_nothing
    (fetch : String → Except String String)
    (extract : List String → Except String PolicyAnalysis)
    (gd : String → String) (urls : List String) :
    ((∃ u ∈ urls, ∃ e, fetch u = .error e) →
      run_process_and_cache fetch extract gd urls = ⟨none, []⟩) ∧
    (∀ pages e, fetchAll fetch urls = .ok pages →
      extract (policies_with_headings pages) = .error e →
      run_process_and_cache fetch extract gd urls = ⟨none, []⟩) := by
  constructor
  · intro ⟨u, hu, e, he⟩
    obtain ⟨e₂, he₂⟩ := fetchAll_error_of_mem fetch urls u hu e he
    unfold run_process_and_cache
    rw [he₂]
  · intro pages e h1 h2
    simp only [run_process_and_cache, h1, h2]

theorem background_failure_writes_nothing_witness :
    run_process_and_cache (fun _ => Except.error "boom")
      (fun _ => Except.ok ⟨⟨⟨[], "", "", ""⟩, ⟨"", "", "", ""⟩, ⟨[], "", "", ""⟩,
        ⟨[], "", "", ""⟩, ⟨[], "", "", ""⟩, ⟨[], "", "", ""⟩, ⟨[], "", "", ""⟩⟩,
        ⟨"", "", ⟨"", "", "", ""⟩, ⟨"", "", "", ""⟩⟩⟩)
      (fun _ => "d") ["u"] = ⟨none, []⟩ :=
  (background_failure_writes_nothing _ _ _ _).1 ⟨"u", by decide, "boom", rfl⟩

/-! ## The risk summarizer -/

theorem selectTopLoop_sublist (l : List SiteAttr) :
    ∀ (seen : List String) (need : Nat), (selectTopLoop seen need l).Sublist l := by
  induction l with
  | nil => intro seen need; simp [selectTopLoop]
  | cons a rest ih =>
    intro seen need
    simp only [selectTopLoop]
    by_cases h1 : a.attributeName = ""
    · rw [if_pos h1]
      exact (ih seen need).cons a
    · rw [if_neg h1]
      by_cases h2 : attribute_section_type a.attributeName ∈ seen
      · rw [if_pos h2]
        exact (ih seen need).cons a
      · rw [if_neg h2]
        by_cases h3 : need ≤ 1
        · rw [if_pos h3]
          exact (List.nil_sublist rest).cons₂ a
        · rw [if_neg h3]
          exact (ih _ _).cons₂ a

theorem selectTopLoop_length (l : List SiteAttr) :
    ∀ (seen : List String) (need : Nat), 1 ≤ need →
    (selectTopLoop seen need l).length = min need (newCategoryCount seen l) := by
  induction l with
  | nil =>
    intro seen need h
    simp [selectTopLoop, newCategoryCount]
  | cons a rest ih =>
    intro seen need hneed
    simp only [selectTopLoop, newCategoryCount]
    by_cases h1 : a.attributeName = ""
    · rw [if_pos h1, if_pos h1]
      exact ih seen need hneed
    · rw [if_neg h1, if_neg h1]
      by_cases h2 : attribute_section_type a.attributeName ∈ seen
      · rw [if_pos h2, if_pos h2]
        exact ih seen need hneed
      · rw [if_neg h2, if_neg h2]
        by_cases h3 : need ≤ 1
        · rw [if_pos h3]
          have hone : need = 1 := le_antisymm h3 hneed
          subst hone
          simp only [List.length_singleton]
          omega
        · rw [if_neg h3]
          have h4 : 1 ≤ need - 1 := by omega
          simp only [List.length_cons, ih _ (need - 1) h4]
          omega

theorem selectTopLoop_cats (l : List SiteAttr) :
    ∀ (seen : List String) (need : Nat),
    ((selectTopLoop seen need l).map
      (fun a => attribute_section_type a.attributeName)).Nodup ∧
    ∀ c ∈ (selectTopLoop seen need l).map
      (fun a => attribute_section_type a.attributeName), c ∉ seen := by
  induction l with
  | nil => intro seen need; simp [selectTopLoop]
  | cons a rest ih =>
    intro seen need
    simp only [selectTopLoop]
    by_cases h1 : a.attributeName = ""
    · rw [if_pos h1]
      exact ih seen need
    · rw [if_neg h1]
      by_cases h2 : attribute_section_type a.attributeName ∈ seen
      · rw [if_pos h2]
        exact ih seen need
      · rw [if_neg h2]
        by_cases h3 : need ≤ 1
        · rw [if_pos h3]
          refine ⟨by simp, ?_⟩
          intro c hc
          simp only [List.map_cons, List.map_nil, List.mem_singleton] at hc
          subst hc
          exact h2
        · rw [if_neg h3]
          obtain ⟨hnd, hns⟩ :=
            ih (attribute_section_type a.attributeName :: seen) (need - 1)
          constructor
          · simp only [List.map_cons, List.nodup_cons]
            exact ⟨fun hmem => (hns _ hmem) (List.mem_cons_self _ _), hnd⟩
          · intro c hc
            simp only [List.map_cons, List.mem_cons] at hc
            rcases hc with rfl | hc
            · exact h2
            · exact fun hcseen => (hns c hc) (List.mem_cons.mpr (Or.inr hcseen))

/-- C2 counterexample: a stored red attribute with an empty member name is
skipped by the selection loop, so a store holding three red attributes of
three pairwise distinct categories yields only two selected attributes,
not three. -/
theorem top_risks_exactly_three_counterexample :
    ((red_attrs_for (fun _ => "example.com") [("", StoredVal.entry ⟨"red", 5⟩)]
        (fun _ => [("", 5), ("health", 4), ("financial_account", 3)])
        "example.com").map (fun a => attribute_section_type a.attributeName) =
      ["", "sensitive_data", "personal_identifiers"]) ∧
    (["", "sensitive_data", "personal_identifiers"] : List String).Nodup ∧
    (compute_top_risks (fun _ => "example.com") [("", StoredVal.entry ⟨"red", 5⟩)]
        (fun _ => [("", 5), ("health", 4), ("financial_account", 3)])
        (fun _ => Except.ok none)
        "example.com").top_high_risk_attributes.length = 2 := by
  decide

/-- C2 (amended): the top_high_risk_attributes list enriches exactly the
selection-loop output, contains only red attributes, holds at most one
attribute per data-collection category, walks the red attributes in their
stored (descending sensitivity) order, and has length min 3 (number of
distinct categories among red attributes with a non-empty name): exactly 3
when at least 3 such attributes of distinct categories exist, fewer (never
padded) otherwise. -/
theorem top_risks_selection (gd : String → String)
    (raw : List (String × StoredVal))
    (zsetOf : String → List (String × Int))
    (cacheFetch : String → Except String (Option PolicyAnalysis))
    (domain : String) :
    (compute_top_risks gd raw zsetOf cacheFetch domain).top_high_risk_attributes =
      (top3_for gd raw zsetOf domain).map
        (enrichAttr (cached_for cacheFetch gd domain)) ∧
    ((compute_top_risks gd raw zsetOf cacheFetch domain).top_high_risk_attributes.all
      (fun e => e.color == "red")) = true ∧
    ((top3_for gd raw zsetOf domain).map
      (fun a => attribute_section_type a.attributeName)).Nodup ∧
    (compute_top_risks gd raw zsetOf cacheFetch domain).top_high_risk_attributes.length =
      min 3 (newCategoryCount [] (red_attrs_for gd raw zsetOf domain)) ∧
    (top3_for gd raw zsetOf domain).Sublist (red_attrs_for gd raw zsetOf domain) := by
  refine ⟨rfl, ?_, ?_, ?_, ?_⟩
  · show ((top3_for gd raw zsetOf domain).map
      (enrichAttr (cached_for cacheFetch gd domain))).all
      (fun e => e.color == "red") = true
    rw [List.all_eq_true]
    intro e he
    obtain ⟨i, hi, rfl⟩ := List.mem_map.mp he
    have hred : i ∈ red_attrs_for gd raw zsetOf domain :=
      (selectTopLoop_sublist _ [] 3).subset hi
    exact (List.mem_filter.mp hred).2
  · exact (selectTopLoop_cats _ [] 3).1
  · show ((top3_for gd raw zsetOf domain).map
      (enrichAttr (cached_for cacheFetch gd domain))).length = _
    rw [List.length_map]
    exact selectTopLoop_length _ [] 3 (by omega)
  · exact selectTopLoop_sublist _ [] 3

/-- C7: has_cached_analysis is true exactly when the Analysis Cache read of
the normalized domain key returned an entry, and a raised cache lookup
error is absorbed: the whole result equals the result of a run whose cache
read reports a plain miss, rather than the error propagating. -/
theorem has_cached_analysis_iff (gd : String → String)
    (raw : List (String × StoredVal))
    (zsetOf : String → List (String × Int))
    (cacheFetch : String → Except String (Option PolicyAnalysis))
    (domain : String) :
    ((compute_top_risks gd raw zsetOf cacheFetch domain).has_cached_analysis = true ↔
      ∃ a, cacheFetch (cache_key_for_domain (normalize_domain gd domain)) =
        Except.ok (some a)) ∧
    (∀ e, cacheFetch (cache_key_for_domain (normalize_domain gd domain)) =
        Except.error e →
      compute_top_risks gd raw zsetOf cacheFetch domain =
        compute_top_risks gd raw zsetOf (fun _ => Except.ok none) domain) := by
  constructor
  · show (cached_for cacheFetch gd domain).isSome = true ↔ _
    unfold cached_for cachedAnalysisOf
    cases hc : cacheFetch (cache_key_for_domain (normalize_domain gd domain)) with
    | error e => simp
    | ok v =>
      cases v with
      | none => simp
      | some a => simp
  · intro e he
    have h1 : cached_for cacheFetch gd domain = none := by
      unfold cached_for cachedAnalysisOf
      rw [he]
    have h2 : cached_for (fun _ => Except.ok none) gd domain = none := rfl
    unfold compute_top_risks
    rw [h1, h2]

theorem has_cached_analysis_iff_witness :
    compute_top_risks (fun _ => "d") [] (fun _ => [])
      (fun _ => Except.error "down") "d" =
      compute_top_risks (fun _ => "d") [] (fun _ => [])
        (fun _ => Except.ok none) "d" :=
  (has_cached_analysis_iff (fun _ => "d") [] (fun _ => [])
    (fun _ => Except.error "down") "d").2 "down" rfl

/-- C8: the mitigations list has length min 2 (length of the enriched
top list), and its entries are, in order, the mitigation views of the first
two selected attributes (their titles agree position by position with the
first two enriched titles). -/
theorem mitigations_track_top_two (gd : String → String)
    (raw : List (String × StoredVal))
    (zsetOf : String → List (String × Int))
    (cacheFetch : String → Except String (Option PolicyAnalysis))
    (domain : String) :
    (compute_top_risks gd raw zsetOf cacheFetch domain).mitigations.length =
      min 2 (compute_top_risks gd raw zsetOf cacheFetch domain).top_high_risk_attributes.length ∧
    (compute_top_risks gd raw zsetOf cacheFetch domain).mitigations.map
      (fun m => m.title) =
      ((compute_top_risks gd raw zsetOf cacheFetch domain).top_high_risk_attributes.map
        (fun e => e.title)).take 2 := by
  constructor
  · show (((top3_for gd raw zsetOf domain).take 2).map
        (mitigationOf (cached_for cacheFetch gd domain))).length =
      min 2 ((top3_for gd raw zsetOf domain).map
        (enrichAttr (cached_for cacheFetch gd domain))).length
    rw [List.length_map, List.length_take, List.length_map]
  · show (((top3_for gd raw zsetOf domain).take 2).map
        (mitigationOf (cached_for cacheFetch gd domain))).map (fun m => m.title) =
      (((top3_for gd raw zsetOf domain).map
        (enrichAttr (cached_for cacheFetch gd domain))).map (fun e => e.title)).take 2
    rw [List.map_map, List.map_map, List.map_take]
    rfl

end Privasee
